import Mathlib

/-!
Verification of the vscode-codeql excerpt: the DataExtensionsEditorView
webview controller (query running, BQRS result reading, message posting),
the generated RemoteRepositorySchema protobuf stub, and the behaviours of
determineSelectedQuery, findSourceArchive and DatabaseManager that the
repository's test suites pin down.

The controller's methods are embedded as pure functions that return both
their result and the observable traces (posted webview messages, log
lines, CLI calls), with the external CLI server and query runner supplied
as function parameters.
-/

/-- A progress update, mirroring `ProgressUpdate` from `../progress`. -/
structure ProgressUpdate where
  message : String
  step : Nat
  maxStep : Nat
  deriving DecidableEq, Repr

/-- Messages the view posts to the webview panel, mirroring the
`ToDataExtensionsEditorMessage` union: progress updates and the decoded
external API usages.  `U` is the type of the decoded usages. -/
inductive ToEditorMessage (U : Type) where
  | showProgress (step : Nat) (maxStep : Nat) (message : String)
  | setExternalApiUsages (externalApiUsages : U)
  deriving DecidableEq, Repr

/-- Method `showProgress(update, maxStep?)`: posts a `showProgress` message whose
`maxStep` is the override when given, else the update's own. -/
def showProgressMsg (update : ProgressUpdate) (maxStep : Option Nat) :
    ToEditorMessage U :=
  .showProgress update.step (maxStep.getD update.maxStep) update.message

/-- Method `clearProgress()`: posts a progress message with step 0, maxStep 0 and
an empty message. -/
def clearProgressMsg : ToEditorMessage U :=
  .showProgress 0 0 ""

/-- Counts the `setExternalApiUsages` messages in a trace. -/
def countSetExternalApiUsages : List (ToEditorMessage U) → Nat
  | [] => 0
  | .setExternalApiUsages _ :: rest => 1 + countSetExternalApiUsages rest
  | .showProgress _ _ _ :: rest => countSetExternalApiUsages rest

/-- One entry of the `"result-sets"` list reported by `bqrsInfo`; only the
name is consumed by `getResults`. -/
structure BqrsResultSet where
  name : String
  deriving DecidableEq, Repr

/-- The part of the `bqrsInfo` CLI answer that `getResults` reads: the
`"result-sets"` list. -/
structure BqrsInfo where
  resultSets : List BqrsResultSet
  deriving DecidableEq, Repr

/-- Calls made to the CLI server, recorded in order. -/
inductive CliCall where
  | bqrsInfoCall (path : String)
  | bqrsDecodeCall (path : String) (resultSetName : String)
  deriving DecidableEq, Repr

/-- Outcome of `getResults`: the returned chunk (if any) plus the
observable traces.  `C` is the type of a decoded BQRS chunk. -/
structure GetResultsOutcome (C U : Type) where
  result : Option C
  messages : List (ToEditorMessage U)
  logs : List String
  calls : List CliCall
  deriving Repr

/-- Method `DataExtensionsEditorView.getResults(bqrsPath)`: asks the CLI server
for `bqrsInfo(bqrsPath)`; if the `"result-sets"` list does not have length
exactly 1 it logs and returns `undefined`; otherwise it shows a
"Decoding results" progress step and returns
`bqrsDecode(bqrsPath, resultSets[0].name)`.  The CLI server is passed in
as the two functions `bqrsInfo` and `bqrsDecode`. -/
def getResults (bqrsInfo : String → BqrsInfo) (bqrsDecode : String → String → C)
    (bqrsPath : String) : GetResultsOutcome C U :=
  let info := bqrsInfo bqrsPath
  if info.resultSets.length ≠ 1 then
    let n := info.resultSets.length
    { result := none
      messages := []
      logs := [s!"Expected exactly one result set, got {n}"]
      calls := [.bqrsInfoCall bqrsPath] }
  else
    match info.resultSets.head? with
    | none =>
      -- unreachable: the guard above ensures the list has length 1
      { result := none, messages := [], logs := [], calls := [.bqrsInfoCall bqrsPath] }
    | some resultSet =>
      { result := some (bqrsDecode bqrsPath resultSet.name)
        messages := [.showProgress 1200 1500 "Decoding results"]
        logs := []
        calls := [.bqrsInfoCall bqrsPath, .bqrsDecodeCall bqrsPath resultSet.name] }

/-- The qlpacks of the database as resolved by `qlpackOfDatabase`: a
dbscheme pack and an optional query pack. -/
structure QlPacks where
  dbschemePack : String
  queryPack : Option String
  deriving DecidableEq, Repr

/-- The `include:` object of a suite entry. -/
structure SuiteInclude where
  id : String
  deriving DecidableEq, Repr

/-- One entry of the query suite YAML written by `runQuery`; `from_` and
`include_` stand for the YAML keys `from` and `include` (Lean keywords). -/
structure SuiteEntry where
  from_ : String
  queries : String
  include_ : SuiteInclude
  deriving DecidableEq, Repr

/-- The suite entry built for one qlpack: `{from: <pack>, queries: ".",
include: {id: "<language>/telemetry/fetch-external-apis"}}`. -/
def suiteEntryFor (language : String) (qlpack : String) : SuiteEntry :=
  { from_ := qlpack
    queries := "."
    include_ := { id := language ++ "/telemetry/fetch-external-apis" } }

/-- The packs searched by `runQuery`: the dbscheme pack, then the query
pack when present. -/
def packsToSearch (qlpacks : QlPacks) : List String :=
  qlpacks.dbschemePack ::
    (match qlpacks.queryPack with
     | some queryPack => [queryPack]
     | none => [])

/-- The suite YAML `runQuery` writes: one entry per pack to search. -/
def suiteYamlOf (qlpacks : QlPacks) (language : String) : List SuiteEntry :=
  (packsToSearch qlpacks).map (suiteEntryFor language)

/-- The output directory of a query run; `loadExternalApiUsages` reads
`outputDir.bqrsPath` from it. -/
structure QueryOutputDir where
  bqrsPath : String
  deriving DecidableEq, Repr

/-- A completed query as returned by `queryRun.evaluate`, mirroring the
part of `CoreCompletedQuery` the view consumes. -/
structure CoreCompletedQuery where
  outputDir : QueryOutputDir
  deriving DecidableEq, Repr

/-- Outcome of `runQuery`: the completed query (if any), the suite YAML it
wrote to the temporary `.qls` file, the progress messages posted through
the evaluate callback, the log lines, and whether
`queryRunner.createQueryRun` was invoked. -/
structure RunQueryOutcome (U : Type) where
  result : Option CoreCompletedQuery
  suiteYaml : List SuiteEntry
  messages : List (ToEditorMessage U)
  logs : List String
  createQueryRunCalled : Bool
  deriving Repr

/-- Method `DataExtensionsEditorView.runQuery()`: builds `packsToSearch` from the
database's qlpacks (the dbscheme pack, then the query pack when present),
writes one suite entry per pack, resolves the suite, and unless exactly
one query was resolved logs the count and returns `undefined`; otherwise
it creates and evaluates a query run, forwarding progress updates with
`maxStep` 1500.  External collaborators are parameters:
`resolveQueriesInSuite` is the CLI call on the written suite, and the
evaluation produces progress updates `evalUpdates` and result
`evalResult`. -/
def runQuery (qlpacks : QlPacks) (language : String)
    (resolveQueriesInSuite : List SuiteEntry → List String)
    (evalUpdates : List ProgressUpdate) (evalResult : CoreCompletedQuery) :
    RunQueryOutcome U :=
  let suiteYaml := suiteYamlOf qlpacks language
  let queries := resolveQueriesInSuite suiteYaml
  if queries.length ≠ 1 then
    let n := queries.length
    { result := none
      suiteYaml := suiteYaml
      messages := []
      logs := [s!"Expected exactly one query, got {n}"]
      createQueryRunCalled := false }
  else
    { result := some evalResult
      suiteYaml := suiteYaml
      messages := evalUpdates.map (fun update => showProgressMsg update (some 1500))
      logs := []
      createQueryRunCalled := true }

/-- Outcome of `loadExternalApiUsages`: the posted messages, logs, CLI
calls, and whether a query run was created. -/
structure LoadOutcome (U : Type) where
  messages : List (ToEditorMessage U)
  logs : List String
  calls : List CliCall
  createQueryRunCalled : Bool
  deriving Repr

/-- Method `DataExtensionsEditorView.loadExternalApiUsages()`: runs the query;
when it yields no result, clears progress and returns.  Otherwise shows
"Loading results", reads the BQRS file at the run's `bqrsPath` through
`getResults`; when that yields no chunk, clears progress and returns.
Otherwise shows "Finalizing results", decodes the chunk with
`decodeBqrsToExternalApiUsages` (passed as the parameter `decodeBqrs`,
defined in `./bqrs`), posts the `setExternalApiUsages` message and clears
progress. -/
def loadExternalApiUsages (qlpacks : QlPacks) (language : String)
    (resolveQueriesInSuite : List SuiteEntry → List String)
    (evalUpdates : List ProgressUpdate) (evalResult : CoreCompletedQuery)
    (bqrsInfo : String → BqrsInfo) (bqrsDecode : String → String → C)
    (decodeBqrs : C → U) : LoadOutcome U :=
  let rq : RunQueryOutcome U :=
    runQuery qlpacks language resolveQueriesInSuite evalUpdates evalResult
  match rq.result with
  | none =>
    { messages := rq.messages ++ [clearProgressMsg]
      logs := rq.logs
      calls := []
      createQueryRunCalled := rq.createQueryRunCalled }
  | some queryResult =>
    let afterQuery := rq.messages ++ [.showProgress 1100 1500 "Loading results"]
    let bqrsPath := queryResult.outputDir.bqrsPath
    let gr := getResults (U := U) bqrsInfo bqrsDecode bqrsPath
    match gr.result with
    | none =>
      { messages := afterQuery ++ gr.messages ++ [clearProgressMsg]
        logs := rq.logs ++ gr.logs
        calls := gr.calls
        createQueryRunCalled := rq.createQueryRunCalled }
    | some bqrsChunk =>
      { messages := afterQuery ++ gr.messages ++
          [.showProgress 1450 1500 "Finalizing results",
           .setExternalApiUsages (decodeBqrs bqrsChunk),
           clearProgressMsg]
        logs := rq.logs ++ gr.logs
        calls := gr.calls
        createQueryRunCalled := rq.createQueryRunCalled }

/-- Outcome of `onMessage`: either the view-loaded handler ran (which
calls `loadExternalApiUsages`) or an error was thrown. -/
inductive OnMessageOutcome where
  | loadTriggered
  | threw (errorMessage : String)
  deriving DecidableEq, Repr

/-- Method `DataExtensionsEditorView.onMessage(msg)`: switches on `msg.t`; on
`"viewLoaded"` it awaits `onWebViewLoaded`, which calls
`loadExternalApiUsages`; any other tag throws "Unexpected message type". -/
def onMessage (t : String) : OnMessageOutcome :=
  match t with
  | "viewLoaded" => .loadTriggered
  | _ => .threw "Unexpected message type"

/-- JS `String.prototype.endsWith`, on the character lists. -/
def strEndsWith (s suffix : String) : Bool :=
  suffix.data.isSuffixOf s.data

/-- JS `String.prototype.startsWith`, on the character lists. -/
def strStartsWith (s pre : String) : Bool :=
  pre.data.isPrefixOf s.data

/-- The result of a successful `determineSelectedQuery`: the query path
and the quick-eval position (absent when not quick-evaling). -/
structure SelectedQuery (Pos : Type) where
  queryPath : String
  quickEvalPosition : Option Pos
  deriving DecidableEq, Repr

/-- Modelled from the spec: `determineSelectedQuery` of
`run-queries-shared.ts` is absent from the excerpt; only its test suite
("selected-query determination") is present.  The URI is represented by
its file-system path and the editor selection (used only for quick-eval)
by the parameter `selectedPosition`.  When `quickEval` is false only
`.ql` files are accepted and the quick-eval position is absent; when
`quickEval` is true `.ql` and `.qll` files are accepted; other extensions
throw the error messages the tests match on. -/
def determineSelectedQuery (Pos : Type) (uriFsPath : String) (quickEval : Bool)
    (selectedPosition : Pos) : Except String (SelectedQuery Pos) :=
  if quickEval then
    if strEndsWith uriFsPath ".ql" || strEndsWith uriFsPath ".qll" then
      .ok { queryPath := uriFsPath, quickEvalPosition := some selectedPosition }
    else
      .error "The selected resource is not a CodeQL file"
  else
    if strEndsWith uriFsPath ".ql" then
      .ok { queryPath := uriFsPath, quickEvalPosition := none }
    else
      .error "The selected resource is not a CodeQL query file"

/-- Helper for `findSourceArchive`: walks the relative candidate names in
order, preferring `<name>.zip` over the plain folder `<name>` for each. -/
def findSourceArchiveGo (pathExists : String → Bool) (databasePath : String) :
    List String → Option String
  | [] => none
  | relativePath :: rest =>
    let basePath := databasePath ++ "/" ++ relativePath
    let zipPath := basePath ++ ".zip"
    if pathExists zipPath then some zipPath
    else if pathExists basePath then some basePath
    else findSourceArchiveGo pathExists databasePath rest

/-- Modelled from the spec: `findSourceArchive` of `databases.ts` is
absent from the excerpt; only its test suite ("source-archive
resolution") is present.  The filesystem is the predicate `pathExists`;
the returned value is the file-system path of the resolved source
archive URI.  Candidate names are `src` then `output/src_archive`, each
tried zipped first, and the first existing candidate wins. -/
def findSourceArchive (pathExists : String → Bool) (databasePath : String) :
    Option String :=
  findSourceArchiveGo pathExists databasePath ["src", "output/src_archive"]

/-- The database options persisted with each item, mirroring
`FullDatabaseOptions` as the tests use it (`dateAdded`,
`ignoreSourceArchive`, `language`, and the optional `displayName` that
renaming sets). -/
structure FullDatabaseOptions where
  dateAdded : Nat
  ignoreSourceArchive : Bool
  language : String
  displayName : Option String
  deriving DecidableEq, Repr

/-- A database item as the DatabaseManager tests observe it: its URI
(as the string the persisted list stores), its options, and whether its
on-disk location would be deleted on removal. -/
structure DatabaseItemModel where
  databaseUri : String
  options : FullDatabaseOptions
  deriving DecidableEq, Repr

/-- The display name of an item: its options' `displayName` when set. -/
def DatabaseItemModel.name (item : DatabaseItemModel) : Option String :=
  item.options.displayName

/-- One entry of the persisted `databaseList` workspace state: the item's
options and its URI string. -/
structure PersistedDatabaseItem where
  uri : String
  options : FullDatabaseOptions
  deriving DecidableEq, Repr

/-- The persisted form of a database item. -/
def persistItem (item : DatabaseItemModel) : PersistedDatabaseItem :=
  { uri := item.databaseUri, options := item.options }

/-- The kinds of `onDidChangeDatabaseItem` events. -/
inductive DatabaseEventKind where
  | Add
  | Rename
  | Remove
  deriving DecidableEq, Repr

/-- Modelled from the spec: the `DatabaseManager` of `databases.ts` is
absent from the excerpt; only its test suite ("database management") is
present.  The state holds the in-memory item list, the value persisted
under the workspace-state key `databaseList`, the fired event kinds (in
order), the paths passed to `fs.remove`, and the extension's storage
path used to decide whether removal deletes on-disk contents. -/
structure DatabaseManagerState where
  databaseItems : List DatabaseItemModel
  persistedDatabaseList : List PersistedDatabaseItem
  events : List DatabaseEventKind
  removedPaths : List String
  workspaceFoldersRemoved : Nat
  storagePath : String
  deriving DecidableEq, Repr

/-- Method `updatePersistedDatabaseList`: persists the full current list, each
entry holding the item's options and URI string. -/
def updatePersistedDatabaseList (s : DatabaseManagerState) : DatabaseManagerState :=
  { s with persistedDatabaseList := s.databaseItems.map persistItem }

/-- Method `addDatabaseItem`: appends the item, persists the list, fires Add. -/
def addDatabaseItem (s : DatabaseManagerState) (item : DatabaseItemModel) :
    DatabaseManagerState :=
  let s := { s with databaseItems := s.databaseItems ++ [item] }
  let s := updatePersistedDatabaseList s
  { s with events := s.events ++ [DatabaseEventKind.Add] }

/-- Method `removeDatabaseItem`: removes the item from the list, persists the
shrunken list, removes the item's workspace folder, deletes the on-disk
contents only when the database URI lies under the extension's storage
path, and fires Remove. -/
def removeDatabaseItem (s : DatabaseManagerState) (item : DatabaseItemModel) :
    DatabaseManagerState :=
  let s := { s with databaseItems := s.databaseItems.filter (· ≠ item) }
  let s := updatePersistedDatabaseList s
  let s := { s with workspaceFoldersRemoved := s.workspaceFoldersRemoved + 1 }
  let s :=
    if strStartsWith item.databaseUri s.storagePath then
      { s with removedPaths := s.removedPaths ++ [item.databaseUri] }
    else
      s
  { s with events := s.events ++ [DatabaseEventKind.Remove] }

/-- Method `renameDatabaseItem`: sets the item's name (stored as the
`displayName` of its options), persists the list with the new options,
and fires Rename.  The item is identified by its URI. -/
def renameDatabaseItem (s : DatabaseManagerState) (item : DatabaseItemModel)
    (newName : String) : DatabaseManagerState :=
  let s :=
    { s with
      databaseItems := s.databaseItems.map fun it =>
        if it.databaseUri = item.databaseUri then
          { it with options := { it.options with displayName := some newName } }
        else
          it }
  let s := updatePersistedDatabaseList s
  { s with events := s.events ++ [DatabaseEventKind.Rename] }

/-- One field declaration of the generated protobuf field list. -/
structure ProtoFieldDecl where
  no : Nat
  name : String
  kind : String
  T : Nat
  deriving DecidableEq, Repr

/-- The generated message class `RemoteRepositorySchema`: its instance
data is the two scalar string fields, defaulting to the empty string. -/
structure RemoteRepositorySchema where
  owner : String := ""
  name : String := ""
  deriving DecidableEq, Repr

/-- Static property `RemoteRepositorySchema.typeName`. -/
def RemoteRepositorySchema.typeName : String := "docs.RemoteRepositorySchema"

/-- Static property `RemoteRepositorySchema.fields`: the generated field list; `T := 9`
is `ScalarType.STRING`. -/
def RemoteRepositorySchema.fields : List ProtoFieldDecl :=
  [{ no := 1, name := "owner", kind := "scalar", T := 9 },
   { no := 2, name := "name", kind := "scalar", T := 9 }]

/-- Construction `new RemoteRepositorySchema()` with no data: `initPartial` copies
nothing, so the instance keeps the field initializers. -/
def RemoteRepositorySchema.mkEmpty : RemoteRepositorySchema := {}

/-! ## Helper lemmas -/

/-- Counting `setExternalApiUsages` messages distributes over append. -/
theorem countSetExternalApiUsages_append (l₁ l₂ : List (ToEditorMessage U)) :
    countSetExternalApiUsages (l₁ ++ l₂) =
      countSetExternalApiUsages l₁ + countSetExternalApiUsages l₂ := by
  induction l₁ with
  | nil => simp [countSetExternalApiUsages]
  | cons m rest ih =>
    cases m with
    | showProgress a b c => simp [countSetExternalApiUsages, ih]
    | setExternalApiUsages u =>
      simp [countSetExternalApiUsages, ih, Nat.add_assoc]

/-- A trace of forwarded progress updates holds no results message. -/
theorem countSetExternalApiUsages_map_showProgress
    (updates : List ProgressUpdate) (maxStep : Option Nat) :
    countSetExternalApiUsages
      (updates.map (fun update => showProgressMsg (U := U) update maxStep)) = 0 := by
  induction updates with
  | nil => simp [countSetExternalApiUsages]
  | cons u rest ih =>
    simp only [countSetExternalApiUsages, showProgressMsg, List.map] at ih ⊢
    exact ih

/-! ## Claims -/

/-- C8: the generated `RemoteRepositorySchema` message class has type name
`"docs.RemoteRepositorySchema"`, declares exactly the two scalar string
fields `owner` (field number 1) and `name` (field number 2), and an
instance constructed with no data has both fields equal to `""`. -/
theorem c8_remoteRepositorySchema_shape :
    RemoteRepositorySchema.typeName = "docs.RemoteRepositorySchema" ∧
    RemoteRepositorySchema.fields.length = 2 ∧
    RemoteRepositorySchema.fields =
      [{ no := 1, name := "owner", kind := "scalar", T := 9 },
       { no := 2, name := "name", kind := "scalar", T := 9 }] ∧
    RemoteRepositorySchema.mkEmpty.owner = "" ∧
    RemoteRepositorySchema.mkEmpty.name = "" := by
  refine ⟨rfl, rfl, rfl, rfl, rfl⟩

/-- C6: `onMessage` triggers the view-loaded handler (and hence
`loadExternalApiUsages`) exactly when the message tag is `"viewLoaded"`,
and throws "Unexpected message type" for every other tag. -/
theorem c6_onMessage_dispatch (t : String) :
    (onMessage t = OnMessageOutcome.loadTriggered ↔ t = "viewLoaded") ∧
    (t ≠ "viewLoaded" →
      onMessage t = OnMessageOutcome.threw "Unexpected message type") := by
  unfold onMessage
  by_cases h : t = "viewLoaded" <;> simp [h]

/-- C6 witness: a non-`"viewLoaded"` message makes `onMessage` throw. -/
theorem c6_onMessage_dispatch_witness :
    onMessage "somethingElse" = OnMessageOutcome.threw "Unexpected message type" ∧
    onMessage "viewLoaded" = OnMessageOutcome.loadTriggered := by
  exact ⟨(c6_onMessage_dispatch "somethingElse").2 (by decide),
         (c6_onMessage_dispatch "viewLoaded").1.mpr rfl⟩

/-- C7: the suite YAML built by `runQuery` is one entry for the dbscheme
pack and, exactly when a query pack is present, a second entry for it, in
that order, each of the shape `{from, queries: ".", include: {id:
"<language>/telemetry/fetch-external-apis"}}`. -/
theorem c7_runQuery_suiteYaml {U : Type} (qlpacks : QlPacks) (language : String)
    (resolveQueriesInSuite : List SuiteEntry → List String)
    (evalUpdates : List ProgressUpdate) (evalResult : CoreCompletedQuery) :
    (runQuery (U := U) qlpacks language resolveQueriesInSuite evalUpdates
        evalResult).suiteYaml =
      match qlpacks.queryPack with
      | none =>
        [{ from_ := qlpacks.dbschemePack
           queries := "."
           include_ := { id := language ++ "/telemetry/fetch-external-apis" } }]
      | some queryPack =>
        [{ from_ := qlpacks.dbschemePack
           queries := "."
           include_ := { id := language ++ "/telemetry/fetch-external-apis" } },
         { from_ := queryPack
           queries := "."
           include_ := { id := language ++ "/telemetry/fetch-external-apis" } }] := by
  obtain ⟨dbschemePack, queryPack⟩ := qlpacks
  cases queryPack with
  | none =>
    simp only [runQuery, suiteYamlOf, packsToSearch, suiteEntryFor]
    split <;> rfl
  | some queryPack =>
    simp only [runQuery, suiteYamlOf, packsToSearch, suiteEntryFor]
    split <;> rfl

/-- C4: `findSourceArchive` returns the first existing candidate in the
priority order src.zip, src, output/src_archive.zip, output/src_archive
(zipped before unzipped for each name, all src candidates before all
output/src_archive candidates), and the returned file-system path is that
candidate's path under the database directory. -/
theorem c4_findSourceArchive_priority (pathExists : String → Bool)
    (databasePath : String) :
    findSourceArchive pathExists databasePath =
      [databasePath ++ "/src.zip",
       databasePath ++ "/src",
       databasePath ++ "/output/src_archive.zip",
       databasePath ++ "/output/src_archive"].find? pathExists := by
  have hs : databasePath ++ "/" ++ "src" = databasePath ++ "/src" := by
    apply String.ext; simp [String.data_append]
  have hsz : databasePath ++ "/src" ++ ".zip" = databasePath ++ "/src.zip" := by
    apply String.ext; simp [String.data_append]
  have ha : databasePath ++ "/" ++ "output/src_archive" =
      databasePath ++ "/output/src_archive" := by
    apply String.ext; simp [String.data_append]
  have haz : databasePath ++ "/output/src_archive" ++ ".zip" =
      databasePath ++ "/output/src_archive.zip" := by
    apply String.ext; simp [String.data_append]
  simp only [findSourceArchive, findSourceArchiveGo, hs, hsz, ha, haz, List.find?]
  by_cases h1 : pathExists (databasePath ++ "/src.zip") <;>
    by_cases h2 : pathExists (databasePath ++ "/src") <;>
      by_cases h3 : pathExists (databasePath ++ "/output/src_archive.zip") <;>
        by_cases h4 : pathExists (databasePath ++ "/output/src_archive") <;>
          simp [h1, h2, h3, h4]

/-- C2: BQRS files are read only through CLI subcommands: `getResults`
first calls `bqrsInfo(bqrsPath)`; when the reported result-sets list has
exactly one entry it returns `bqrsDecode(bqrsPath, name)` for that
entry's name, and for any other number it logs once and returns
`undefined`. -/
theorem c2_getResults_via_cli {C U : Type} (bqrsInfo : String → BqrsInfo)
    (bqrsDecode : String → String → C) (bqrsPath : String) :
    (getResults (U := U) bqrsInfo bqrsDecode bqrsPath).calls.head? =
      some (CliCall.bqrsInfoCall bqrsPath) ∧
    (getResults (U := U) bqrsInfo bqrsDecode bqrsPath).result =
      (match (bqrsInfo bqrsPath).resultSets with
       | [rs] => some (bqrsDecode bqrsPath rs.name)
       | _ => none) ∧
    (getResults (U := U) bqrsInfo bqrsDecode bqrsPath).logs.length =
      (if (bqrsInfo bqrsPath).resultSets.length = 1 then 0 else 1) := by
  rcases h : (bqrsInfo bqrsPath).resultSets with _ | ⟨rs, rest⟩
  · simp [getResults, h]
  · rcases rest with _ | ⟨rs2, rest2⟩ <;> simp [getResults, h]

/-- C1: when the query run completes and reading the BQRS file yields a
result-set chunk, `loadExternalApiUsages` posts exactly one
`setExternalApiUsages` message carrying
`decodeBqrsToExternalApiUsages(chunk)`, followed by the
progress-clearing message (step 0, maxStep 0, empty message). -/
theorem c1_loadExternalApiUsages_posts_decoded_results {C U : Type}
    (qlpacks : QlPacks) (language : String)
    (resolveQueriesInSuite : List SuiteEntry → List String)
    (evalUpdates : List ProgressUpdate) (evalResult : CoreCompletedQuery)
    (bqrsInfo : String → BqrsInfo) (bqrsDecode : String → String → C)
    (decodeBqrs : C → U) (rs : BqrsResultSet)
    (hq : (resolveQueriesInSuite (suiteYamlOf qlpacks language)).length = 1)
    (hr : (bqrsInfo evalResult.outputDir.bqrsPath).resultSets = [rs]) :
    ∃ pre,
      (loadExternalApiUsages qlpacks language resolveQueriesInSuite evalUpdates
          evalResult bqrsInfo bqrsDecode decodeBqrs).messages =
        pre ++
          [ToEditorMessage.setExternalApiUsages
             (decodeBqrs (bqrsDecode evalResult.outputDir.bqrsPath rs.name)),
           ToEditorMessage.showProgress 0 0 ""] ∧
      countSetExternalApiUsages
        (loadExternalApiUsages qlpacks language resolveQueriesInSuite evalUpdates
            evalResult bqrsInfo bqrsDecode decodeBqrs).messages = 1 := by
  refine ⟨(evalUpdates.map fun update => showProgressMsg update (some 1500)) ++
    [ToEditorMessage.showProgress 1100 1500 "Loading results",
     ToEditorMessage.showProgress 1200 1500 "Decoding results",
     ToEditorMessage.showProgress 1450 1500 "Finalizing results"], ?_, ?_⟩
  · simp [loadExternalApiUsages, runQuery, getResults, clearProgressMsg, hq, hr]
  · simp [loadExternalApiUsages, runQuery, getResults, clearProgressMsg, hq, hr,
      countSetExternalApiUsages_append, countSetExternalApiUsages_map_showProgress,
      countSetExternalApiUsages]

/-- C1 witness: a concrete run with one resolved query and one result
set posts the decoded usages then clears progress. -/
theorem c1_loadExternalApiUsages_posts_decoded_results_witness :
    ∃ pre,
      (loadExternalApiUsages (C := Nat) (U := Nat)
          { dbschemePack := "codeql/java-all", queryPack := none } "java"
          (fun _ => ["/home/FetchExternalAPIs.ql"]) []
          { outputDir := { bqrsPath := "/tmp/results.bqrs" } }
          (fun _ => { resultSets := [{ name := "#select" }] })
          (fun _ _ => 7) (fun chunk => chunk + 1)).messages =
        pre ++
          [ToEditorMessage.setExternalApiUsages 8,
           ToEditorMessage.showProgress 0 0 ""] ∧
      countSetExternalApiUsages
        (loadExternalApiUsages (C := Nat) (U := Nat)
            { dbschemePack := "codeql/java-all", queryPack := none } "java"
            (fun _ => ["/home/FetchExternalAPIs.ql"]) []
            { outputDir := { bqrsPath := "/tmp/results.bqrs" } }
            (fun _ => { resultSets := [{ name := "#select" }] })
            (fun _ _ => 7) (fun chunk => chunk + 1)).messages = 1 := by
  exact c1_loadExternalApiUsages_posts_decoded_results
    { dbschemePack := "codeql/java-all", queryPack := none } "java"
    (fun _ => ["/home/FetchExternalAPIs.ql"]) []
    { outputDir := { bqrsPath := "/tmp/results.bqrs" } }
    (fun _ => { resultSets := [{ name := "#select" }] })
    (fun _ _ => 7) (fun chunk => chunk + 1) { name := "#select" }
    (by simp) (by simp)

/-- C9: when resolving the suite yields a number of queries other than
one, `runQuery` logs the count, never creates a query run and returns
`undefined`; `loadExternalApiUsages` then just clears progress and posts
no results message. -/
theorem c9_runQuery_requires_single_query {C U : Type}
    (qlpacks : QlPacks) (language : String)
    (resolveQueriesInSuite : List SuiteEntry → List String)
    (evalUpdates : List ProgressUpdate) (evalResult : CoreCompletedQuery)
    (bqrsInfo : String → BqrsInfo) (bqrsDecode : String → String → C)
    (decodeBqrs : C → U)
    (h : (resolveQueriesInSuite (suiteYamlOf qlpacks language)).length ≠ 1) :
    (runQuery (U := U) qlpacks language resolveQueriesInSuite evalUpdates
        evalResult).result = none ∧
    (runQuery (U := U) qlpacks language resolveQueriesInSuite evalUpdates
        evalResult).createQueryRunCalled = false ∧
    (runQuery (U := U) qlpacks language resolveQueriesInSuite evalUpdates
        evalResult).logs =
      [s!"Expected exactly one query, got {(resolveQueriesInSuite (suiteYamlOf qlpacks language)).length}"] ∧
    (loadExternalApiUsages qlpacks language resolveQueriesInSuite evalUpdates
        evalResult bqrsInfo bqrsDecode decodeBqrs).messages =
      [ToEditorMessage.showProgress 0 0 ""] ∧
    countSetExternalApiUsages
      (loadExternalApiUsages qlpacks language resolveQueriesInSuite evalUpdates
          evalResult bqrsInfo bqrsDecode decodeBqrs).messages = 0 := by
  refine ⟨?_, ?_, ?_, ?_, ?_⟩ <;>
    simp [runQuery, loadExternalApiUsages, clearProgressMsg,
      countSetExternalApiUsages, h]

/-- C9 witness: with a resolver returning no queries, no query run is
created and only the progress-clearing message is posted. -/
theorem c9_runQuery_requires_single_query_witness :
    (runQuery (U := Nat) { dbschemePack := "codeql/java-all", queryPack := none }
        "java" (fun _ => []) [] { outputDir := { bqrsPath := "/tmp/results.bqrs" } }).result = none ∧
    (runQuery (U := Nat) { dbschemePack := "codeql/java-all", queryPack := none }
        "java" (fun _ => []) [] { outputDir := { bqrsPath := "/tmp/results.bqrs" } }).createQueryRunCalled = false ∧
    (runQuery (U := Nat) { dbschemePack := "codeql/java-all", queryPack := none }
        "java" (fun _ => []) [] { outputDir := { bqrsPath := "/tmp/results.bqrs" } }).logs =
      ["Expected exactly one query, got 0"] ∧
    (loadExternalApiUsages (C := Nat) (U := Nat)
        { dbschemePack := "codeql/java-all", queryPack := none } "java"
        (fun _ => []) [] { outputDir := { bqrsPath := "/tmp/results.bqrs" } }
        (fun _ => { resultSets := [] }) (fun _ _ => 0) id).messages =
      [ToEditorMessage.showProgress 0 0 ""] ∧
    countSetExternalApiUsages
      (loadExternalApiUsages (C := Nat) (U := Nat)
          { dbschemePack := "codeql/java-all", queryPack := none } "java"
          (fun _ => []) [] { outputDir := { bqrsPath := "/tmp/results.bqrs" } }
          (fun _ => { resultSets := [] }) (fun _ _ => 0) id).messages = 0 := by
  exact c9_runQuery_requires_single_query
    { dbschemePack := "codeql/java-all", queryPack := none } "java"
    (fun _ => []) [] { outputDir := { bqrsPath := "/tmp/results.bqrs" } }
    (fun _ => { resultSets := [] }) (fun _ _ => 0) id (by simp)

/-- C3: `determineSelectedQuery` accepts `.ql` files when not
quick-evaluating (returning the URI's path and no quick-eval position)
and throws "The selected resource is not a CodeQL query file" for every
other extension; when quick-evaluating it accepts `.ql` and `.qll`
files and throws "The selected resource is not a CodeQL file"
otherwise. -/
theorem c3_determineSelectedQuery_extensions (Pos : Type) (pos : Pos)
    (p : String) :
    (strEndsWith p ".ql" = true →
      determineSelectedQuery Pos p false pos =
        Except.ok { queryPath := p, quickEvalPosition := none }) ∧
    (strEndsWith p ".ql" = false →
      determineSelectedQuery Pos p false pos =
        Except.error "The selected resource is not a CodeQL query file") ∧
    ((strEndsWith p ".ql" || strEndsWith p ".qll") = true →
      determineSelectedQuery Pos p true pos =
        Except.ok { queryPath := p, quickEvalPosition := some pos }) ∧
    ((strEndsWith p ".ql" || strEndsWith p ".qll") = false →
      determineSelectedQuery Pos p true pos =
        Except.error "The selected resource is not a CodeQL file") := by
  refine ⟨fun h => ?_, fun h => ?_, fun h => ?_, fun h => ?_⟩ <;>
    simp [determineSelectedQuery, h]

/-- C3 witness: a `.ql` file is accepted for a normal run, a `.qll` file
is rejected there (it does not end in `.ql`), a `.qll` file is accepted
for quick evaluation, and a `.txt` file is rejected there. -/
theorem c3_determineSelectedQuery_extensions_witness :
    determineSelectedQuery Nat "/tmp/queryname.ql" false 0 =
      Except.ok { queryPath := "/tmp/queryname.ql", quickEvalPosition := none } ∧
    determineSelectedQuery Nat "/tmp/queryname.qll" false 0 =
      Except.error "The selected resource is not a CodeQL query file" ∧
    determineSelectedQuery Nat "/tmp/library.qll" true 0 =
      Except.ok { queryPath := "/tmp/library.qll", quickEvalPosition := some 0 } ∧
    determineSelectedQuery Nat "/tmp/queryname.txt" true 0 =
      Except.error "The selected resource is not a CodeQL file" := by
  exact ⟨(c3_determineSelectedQuery_extensions Nat 0 "/tmp/queryname.ql").1
           (by decide),
         (c3_determineSelectedQuery_extensions Nat 0 "/tmp/queryname.qll").2.1
           (by decide),
         (c3_determineSelectedQuery_extensions Nat 0 "/tmp/library.qll").2.2.1
           (by decide),
         (c3_determineSelectedQuery_extensions Nat 0 "/tmp/queryname.txt").2.2.2
           (by decide)⟩

/-- C5: every mutation of the database-item list keeps the persisted
`databaseList` in sync (it always equals the item list mapped to
`{options, uri}` entries) and fires the matching event: add appends the
item and fires Add, remove deletes it and fires Remove, rename gives
every item with the renamed URI the new `displayName` and fires
Rename. -/
theorem c5_databaseManager_sync (s : DatabaseManagerState)
    (item : DatabaseItemModel) (newName : String) :
    (addDatabaseItem s item).databaseItems = s.databaseItems ++ [item] ∧
    (addDatabaseItem s item).persistedDatabaseList =
      (addDatabaseItem s item).databaseItems.map persistItem ∧
    (addDatabaseItem s item).events = s.events ++ [DatabaseEventKind.Add] ∧
    (removeDatabaseItem s item).databaseItems =
      s.databaseItems.filter (· ≠ item) ∧
    (removeDatabaseItem s item).persistedDatabaseList =
      (removeDatabaseItem s item).databaseItems.map persistItem ∧
    (removeDatabaseItem s item).events = s.events ++ [DatabaseEventKind.Remove] ∧
    (renameDatabaseItem s item newName).persistedDatabaseList =
      (renameDatabaseItem s item newName).databaseItems.map persistItem ∧
    (renameDatabaseItem s item newName).events =
      s.events ++ [DatabaseEventKind.Rename] ∧
    ((renameDatabaseItem s item newName).databaseItems.all fun it =>
      (it.databaseUri != item.databaseUri) || (it.name == some newName)) = true := by
  refine ⟨rfl, rfl, rfl, ?_, ?_, ?_, ?_, ?_, ?_⟩
  · simp only [removeDatabaseItem, updatePersistedDatabaseList]
    split <;> rfl
  · simp only [removeDatabaseItem, updatePersistedDatabaseList]
    split <;> rfl
  · simp only [removeDatabaseItem, updatePersistedDatabaseList]
    split <;> rfl
  · rfl
  · rfl
  · simp only [renameDatabaseItem, updatePersistedDatabaseList]
    induction s.databaseItems with
    | nil => rfl
    | cons it rest ih =>
      by_cases h : it.databaseUri = item.databaseUri <;>
        simp_all [DatabaseItemModel.name]

/-- C10: removing a database item deletes the on-disk contents exactly
when the database URI lies under the extension's storage path; in every
case the item leaves the list, the shrunken list is persisted, and the
workspace folder is removed. -/
theorem c10_removeDatabaseItem_frame (s : DatabaseManagerState)
    (item : DatabaseItemModel) :
    (removeDatabaseItem s item).removedPaths =
      s.removedPaths ++
        (if strStartsWith item.databaseUri s.storagePath then [item.databaseUri]
         else []) ∧
    (removeDatabaseItem s item).databaseItems =
      s.databaseItems.filter (· ≠ item) ∧
    (removeDatabaseItem s item).persistedDatabaseList =
      (s.databaseItems.filter (· ≠ item)).map persistItem ∧
    (removeDatabaseItem s item).workspaceFoldersRemoved =
      s.workspaceFoldersRemoved + 1 := by
  unfold removeDatabaseItem updatePersistedDatabaseList
  split <;> simp_all
